import Mathlib

/-!
Shallow embedding of `env/main.go` from the go-sops repository.

Go strings are modelled as `List Char` (the byte/rune distinction is
irrelevant to every property below).  The process environment table is
modelled as an association list where the most recent binding is first;
`os.Setenv` prepends and `os.Getenv` reads the first matching binding.
External collaborators (the `sops -d` subprocess, the temp file, the
`godotenv` parser) are parameters of the embedded functions, the code
itself is translated line by line.
-/

/-- Go strings, modelled as lists of characters. -/
abbrev Str := List Char

/-- The process environment table: most recent binding first. -/
abbrev Env := List (Str × Str)

/-- `os.Setenv`: bind `k` to `v`, shadowing (overwriting) any prior binding. -/
def setEnvVar (env : Env) (k v : Str) : Env :=
  (k, v) :: env

/-- `os.Getenv` as an `Option`: the most recent binding for `k`, if any. -/
def lookupEnv (env : Env) (k : Str) : Option Str :=
  (env.find? (fun p => p.1 = k)).map Prod.snd

/-- `os.Getenv`: Go returns the empty string when the variable is unset. -/
def getEnvVar (env : Env) (k : Str) : Str :=
  (lookupEnv env k).getD []

/-- `strings.Contains(hay, needle)`: `needle` occurs contiguously in `hay`. -/
def containsSub : Str → Str → Bool
  | [], needle => needle.isEmpty
  | c :: rest, needle => List.isPrefixOf needle (c :: rest) || containsSub rest needle

/-- `unicode.IsSpace` restricted to the whitespace characters that occur in
`.env` documents (space, tab, newline, carriage return). -/
def isSpaceChar (c : Char) : Bool :=
  c = ' ' || c = '\t' || c = '\n' || c = '\r'

/-- Drop whitespace from the front (`strings.TrimLeft` over whitespace). -/
def trimLeftWS (s : Str) : Str :=
  s.dropWhile isSpaceChar

/-- Drop whitespace from the back (`strings.TrimRight` over whitespace). -/
def trimRightWS (s : Str) : Str :=
  (s.reverse.dropWhile isSpaceChar).reverse

/-- `strings.TrimSpace`: drop whitespace from both ends. -/
def trimSpace (s : Str) : Str :=
  trimRightWS (trimLeftWS s)

/-- `strings.SplitN(s, "=", 2)`: split at the first `'='` only; a string
without `'='` yields the one-element list `[s]`. -/
def splitN2Eq (s : Str) : List Str :=
  if s.contains '=' then
    [s.takeWhile (fun c => c ≠ '='), (s.dropWhile (fun c => c ≠ '=')).tail]
  else
    [s]

/-- The `EnvConfig` struct of `env/main.go`. -/
structure EnvConfig where
  DBHost : Str
  DBPort : Str
  DBName : Str
  DBUser : Str
  DBPassword : Str
  DBMaxConnections : Str
  RedisURL : Str
  RedisPassword : Str
  JWTSecret : Str
  APIKey : Str
  StripeSecretKey : Str
  SendGridAPIKey : Str
  GoogleClientID : Str
  GoogleClientSecret : Str
  GitHubClientID : Str
  GitHubClientSecret : Str
  WebhookURL : Str
  NotificationServiceURL : Str
  Environment : Str
  Debug : Str
  LogLevel : Str
  EncryptionKey : Str
  SigningKey : Str
deriving DecidableEq

/-- `maskSecret` from `env/main.go`:
strings of length ≤ 4 become all `'*'`; longer strings keep the first two
and last two characters and replace the interior with `'*'`. -/
def maskSecret (value : Str) : Str :=
  if value.length ≤ 4 then
    List.replicate value.length '*'
  else
    value.take 2 ++ List.replicate (value.length - 4) '*' ++ value.drop (value.length - 2)

/-- The marker substrings of `isSecret` in `env/main.go`. -/
def secretVars : List Str :=
  ["PASSWORD".toList, "SECRET".toList, "KEY".toList,
   "TOKEN".toList, "CREDENTIAL".toList, "PRIVATE".toList]

/-- `isSecret` from `env/main.go`: uppercase the name, then test whether it
contains any marker substring. -/
def isSecret (varName : Str) : Bool :=
  secretVars.any (fun secret => containsSub (varName.map Char.toUpper) secret)

/-- The construction of `EnvConfig` from the parsed entry map inside
`LoadSOPSEnv` (lines 71–95 of `env/main.go`).  Go map indexing yields the
zero value (the empty string) for an absent key, hence `.getD []`. -/
def mapConfig (envMap : Str → Option Str) : EnvConfig :=
  { DBHost := (envMap "DB_HOST".toList).getD []
    DBPort := (envMap "DB_PORT".toList).getD []
    DBName := (envMap "DB_NAME".toList).getD []
    DBUser := (envMap "DB_USER".toList).getD []
    DBPassword := (envMap "DB_PASSWORD".toList).getD []
    DBMaxConnections := (envMap "DB_MAX_CONNECTIONS".toList).getD []
    RedisURL := (envMap "REDIS_URL".toList).getD []
    RedisPassword := (envMap "REDIS_PASSWORD".toList).getD []
    JWTSecret := (envMap "JWT_SECRET".toList).getD []
    APIKey := (envMap "API_KEY".toList).getD []
    StripeSecretKey := (envMap "STRIPE_SECRET_KEY".toList).getD []
    SendGridAPIKey := (envMap "SENDGRID_API_KEY".toList).getD []
    GoogleClientID := (envMap "GOOGLE_CLIENT_ID".toList).getD []
    GoogleClientSecret := (envMap "GOOGLE_CLIENT_SECRET".toList).getD []
    GitHubClientID := (envMap "GITHUB_CLIENT_ID".toList).getD []
    GitHubClientSecret := (envMap "GITHUB_CLIENT_SECRET".toList).getD []
    WebhookURL := (envMap "WEBHOOK_URL".toList).getD []
    NotificationServiceURL := (envMap "NOTIFICATION_SERVICE_URL".toList).getD []
    Environment := (envMap "ENVIRONMENT".toList).getD []
    Debug := (envMap "DEBUG".toList).getD []
    LogLevel := (envMap "LOG_LEVEL".toList).getD []
    EncryptionKey := (envMap "ENCRYPTION_KEY".toList).getD []
    SigningKey := (envMap "SIGNING_KEY".toList).getD [] }

/-- The distinct error sites of `LoadSOPSEnv` in `env/main.go`. -/
inductive LoadError where
  | decryptionFailed
  | tempFileFailed
  | tempWriteFailed
  | parseFailed
deriving DecidableEq

/-- `LoadSOPSEnv` from `env/main.go`, with its external collaborators as
parameters: `decrypt` is the `sops -d` subprocess, `createTempOk` and
`writeTempOk` the temp-file steps, `readEnv` the `godotenv.Read` parser
applied to the decrypted bytes.  The Go signature `(*EnvConfig, error)` is
mirrored as a pair of options. -/
def LoadSOPSEnv (decrypt : Str → Except Unit Str)
    (createTempOk : Bool) (writeTempOk : Bool)
    (readEnv : Str → Except Unit (Str → Option Str))
    (filename : Str) : Option EnvConfig × Option LoadError :=
  match decrypt filename with
  | Except.error _ => (none, some LoadError.decryptionFailed)
  | Except.ok decryptedData =>
    if createTempOk = false then (none, some LoadError.tempFileFailed)
    else if writeTempOk = false then (none, some LoadError.tempWriteFailed)
    else
      match readEnv decryptedData with
      | Except.error _ => (none, some LoadError.parseFailed)
      | Except.ok envMap => (some (mapConfig envMap), none)

/-- The error outcomes of `LoadSOPSEnvToSystem`: the decryption error, or
the `failed to set env var %s` error carrying the offending key. -/
inductive ExportError where
  | decryptionFailed
  | setenvFailed (key : Str)
deriving DecidableEq

/-- One iteration of the scanner loop of `LoadSOPSEnvToSystem`
(lines 110–122 of `env/main.go`): trim the line, skip it when blank or a
`#` comment, split at the first `'='`, skip when no `'='` is present,
otherwise yield the trimmed key and trimmed value. -/
def processLine (line : Str) : Option (Str × Str) :=
  let l := trimSpace line
  if l = [] ∨ l.head? = some '#' then none
  else
    match splitN2Eq l with
    | [k, v] => some (trimSpace k, trimSpace v)
    | _ => none

/-- The scanner loop of `LoadSOPSEnvToSystem`: process each line in order;
`setenvOk` models whether `os.Setenv` succeeds for a given key and value;
on a failure the loop returns the error at once, keeping the environment
built so far. -/
def exportLines (setenvOk : Str → Str → Bool) :
    List Str → Env → Option ExportError × Env
  | [], env => (none, env)
  | line :: rest, env =>
    match processLine line with
    | none => exportLines setenvOk rest env
    | some (k, v) =>
      if setenvOk k v then exportLines setenvOk rest (setEnvVar env k v)
      else (some (ExportError.setenvFailed k), env)

/-- `LoadSOPSEnvToSystem` from `env/main.go`: decrypt, then run the scanner
loop over the decrypted lines against the ambient environment. -/
def LoadSOPSEnvToSystem (decrypt : Str → Except Unit (List Str))
    (setenvOk : Str → Str → Bool) (filename : Str) (env : Env) :
    Option ExportError × Env :=
  match decrypt filename with
  | Except.error _ => (some ExportError.decryptionFailed, env)
  | Except.ok lines => exportLines setenvOk lines env

/-- The field lines of `PrintConfig` (lines 137–171 of `env/main.go`), in
output order, as pairs of the printed label and the printed value; the Go
source applies `maskSecret` exactly where shown. -/
def PrintConfig (config : EnvConfig) : List (Str × Str) :=
  [("DB_HOST".toList, config.DBHost),
   ("DB_PORT".toList, config.DBPort),
   ("DB_NAME".toList, config.DBName),
   ("DB_USER".toList, config.DBUser),
   ("DB_PASSWORD".toList, maskSecret config.DBPassword),
   ("DB_MAX_CONNECTIONS".toList, config.DBMaxConnections),
   ("REDIS_URL".toList, maskSecret config.RedisURL),
   ("REDIS_PASSWORD".toList, maskSecret config.RedisPassword),
   ("JWT_SECRET".toList, maskSecret config.JWTSecret),
   ("API_KEY".toList, maskSecret config.APIKey),
   ("STRIPE_SECRET_KEY".toList, maskSecret config.StripeSecretKey),
   ("SENDGRID_API_KEY".toList, maskSecret config.SendGridAPIKey),
   ("GOOGLE_CLIENT_ID".toList, config.GoogleClientID),
   ("GOOGLE_CLIENT_SECRET".toList, maskSecret config.GoogleClientSecret),
   ("GITHUB_CLIENT_ID".toList, config.GitHubClientID),
   ("GITHUB_CLIENT_SECRET".toList, maskSecret config.GitHubClientSecret),
   ("WEBHOOK_URL".toList, config.WebhookURL),
   ("NOTIFICATION_SERVICE_URL".toList, config.NotificationServiceURL),
   ("ENVIRONMENT".toList, config.Environment),
   ("DEBUG".toList, config.Debug),
   ("LOG_LEVEL".toList, config.LogLevel),
   ("ENCRYPTION_KEY".toList, maskSecret config.EncryptionKey),
   ("SIGNING_KEY".toList, maskSecret config.SigningKey)]

/-- The schema: each printed label of `PrintConfig` paired with the raw
value of the `EnvConfig` field it prints, in the same order. -/
def configFields (config : EnvConfig) : List (Str × Str) :=
  [("DB_HOST".toList, config.DBHost),
   ("DB_PORT".toList, config.DBPort),
   ("DB_NAME".toList, config.DBName),
   ("DB_USER".toList, config.DBUser),
   ("DB_PASSWORD".toList, config.DBPassword),
   ("DB_MAX_CONNECTIONS".toList, config.DBMaxConnections),
   ("REDIS_URL".toList, config.RedisURL),
   ("REDIS_PASSWORD".toList, config.RedisPassword),
   ("JWT_SECRET".toList, config.JWTSecret),
   ("API_KEY".toList, config.APIKey),
   ("STRIPE_SECRET_KEY".toList, config.StripeSecretKey),
   ("SENDGRID_API_KEY".toList, config.SendGridAPIKey),
   ("GOOGLE_CLIENT_ID".toList, config.GoogleClientID),
   ("GOOGLE_CLIENT_SECRET".toList, config.GoogleClientSecret),
   ("GITHUB_CLIENT_ID".toList, config.GitHubClientID),
   ("GITHUB_CLIENT_SECRET".toList, config.GitHubClientSecret),
   ("WEBHOOK_URL".toList, config.WebhookURL),
   ("NOTIFICATION_SERVICE_URL".toList, config.NotificationServiceURL),
   ("ENVIRONMENT".toList, config.Environment),
   ("DEBUG".toList, config.Debug),
   ("LOG_LEVEL".toList, config.LogLevel),
   ("ENCRYPTION_KEY".toList, config.EncryptionKey),
   ("SIGNING_KEY".toList, config.SigningKey)]

/-- The `ourVars` allowlist of `PrintSystemEnvVars` (lines 181–189). -/
def ourVars : List Str :=
  ["DB_HOST".toList, "DB_PORT".toList, "DB_NAME".toList, "DB_USER".toList,
   "DB_PASSWORD".toList, "DB_MAX_CONNECTIONS".toList,
   "REDIS_URL".toList, "REDIS_PASSWORD".toList,
   "JWT_SECRET".toList, "API_KEY".toList, "STRIPE_SECRET_KEY".toList,
   "SENDGRID_API_KEY".toList,
   "GOOGLE_CLIENT_ID".toList, "GOOGLE_CLIENT_SECRET".toList,
   "GITHUB_CLIENT_ID".toList, "GITHUB_CLIENT_SECRET".toList,
   "WEBHOOK_URL".toList, "NOTIFICATION_SERVICE_URL".toList,
   "ENVIRONMENT".toList, "DEBUG".toList, "LOG_LEVEL".toList,
   "ENCRYPTION_KEY".toList, "SIGNING_KEY".toList]

/-- The body of the `PrintSystemEnvVars` loop for one allowlisted name
(lines 192–198): skip the name when its current value is empty, otherwise
print the value masked when `isSecret` holds of the name. -/
def renderEnvVar (env : Env) (varName : Str) : Option (Str × Str) :=
  let value := getEnvVar env varName
  if value ≠ [] then
    if isSecret varName then some (varName, maskSecret value)
    else some (varName, value)
  else none

/-- The output lines of `PrintSystemEnvVars` (lines 191–199): the loop body
applied to each allowlisted name in order. -/
def PrintSystemEnvVars (env : Env) : List (Str × Str) :=
  ourVars.filterMap (renderEnvVar env)

/-- The printed label of `PrintConfig` paired with the projection it prints,
for each of the 23 schema fields, in output order. -/
def schemaAccessors : List ((EnvConfig → Str) × Str) :=
  [(EnvConfig.DBHost, "DB_HOST".toList),
   (EnvConfig.DBPort, "DB_PORT".toList),
   (EnvConfig.DBName, "DB_NAME".toList),
   (EnvConfig.DBUser, "DB_USER".toList),
   (EnvConfig.DBPassword, "DB_PASSWORD".toList),
   (EnvConfig.DBMaxConnections, "DB_MAX_CONNECTIONS".toList),
   (EnvConfig.RedisURL, "REDIS_URL".toList),
   (EnvConfig.RedisPassword, "REDIS_PASSWORD".toList),
   (EnvConfig.JWTSecret, "JWT_SECRET".toList),
   (EnvConfig.APIKey, "API_KEY".toList),
   (EnvConfig.StripeSecretKey, "STRIPE_SECRET_KEY".toList),
   (EnvConfig.SendGridAPIKey, "SENDGRID_API_KEY".toList),
   (EnvConfig.GoogleClientID, "GOOGLE_CLIENT_ID".toList),
   (EnvConfig.GoogleClientSecret, "GOOGLE_CLIENT_SECRET".toList),
   (EnvConfig.GitHubClientID, "GITHUB_CLIENT_ID".toList),
   (EnvConfig.GitHubClientSecret, "GITHUB_CLIENT_SECRET".toList),
   (EnvConfig.WebhookURL, "WEBHOOK_URL".toList),
   (EnvConfig.NotificationServiceURL, "NOTIFICATION_SERVICE_URL".toList),
   (EnvConfig.Environment, "ENVIRONMENT".toList),
   (EnvConfig.Debug, "DEBUG".toList),
   (EnvConfig.LogLevel, "LOG_LEVEL".toList),
   (EnvConfig.EncryptionKey, "ENCRYPTION_KEY".toList),
   (EnvConfig.SigningKey, "SIGNING_KEY".toList)]

/-- The last-wins lookup described by the spec: the value of the last entry
for key `k` in a list of entries, if any entry for `k` exists. -/
def lastEntryValue (entries : List (Str × Str)) (k : Str) : Option Str :=
  match entries with
  | [] => none
  | (k', v) :: rest =>
    match lastEntryValue rest k with
    | some v' => some v'
    | none => if k' = k then some v else none

/-- A concrete configuration whose only nonempty field is `RedisURL`. -/
def redisOnlyConfig : EnvConfig :=
  mapConfig (fun k => if k = "REDIS_URL".toList then some ("redis://u".toList) else none)

/-! ### Helper lemmas about `maskSecret` -/

lemma maskSecret_of_le (s : Str) (h : s.length ≤ 4) :
    maskSecret s = List.replicate s.length '*' := by
  unfold maskSecret
  rw [if_pos h]

lemma maskSecret_of_gt (s : Str) (h : 4 < s.length) :
    maskSecret s =
      s.take 2 ++ (List.replicate (s.length - 4) '*' ++ s.drop (s.length - 2)) := by
  unfold maskSecret
  rw [if_neg (by omega), List.append_assoc]

lemma maskSecret_length (s : Str) : (maskSecret s).length = s.length := by
  by_cases h : s.length ≤ 4
  · simp [maskSecret_of_le s h]
  · have h' : 4 < s.length := by omega
    simp only [maskSecret_of_gt s h', List.length_append, List.length_take,
      List.length_replicate, List.length_drop]
    omega

lemma maskSecret_take_two (s : Str) (h : 4 < s.length) :
    (maskSecret s).take 2 = s.take 2 := by
  rw [maskSecret_of_gt s h]
  exact List.take_left' (by simp [List.length_take]; omega)

lemma maskSecret_drop_two (s : Str) (h : 4 < s.length) :
    (maskSecret s).drop (s.length - 2) = s.drop (s.length - 2) := by
  unfold maskSecret
  rw [if_neg (by omega)]
  exact List.drop_left'
    (by simp [List.length_append, List.length_take, List.length_replicate]; omega)

lemma maskSecret_interior (s : Str) (h : 4 < s.length) :
    ((maskSecret s).drop 2).take (s.length - 4) = List.replicate (s.length - 4) '*' := by
  rw [maskSecret_of_gt s h]
  rw [List.drop_left' (show (s.take 2).length = 2 by simp [List.length_take]; omega)]
  exact List.take_left' (by simp)

/-! ### C2 and C3 -/

/-- C2: `maskSecret` preserves the length of its argument; for strings of
length at most 4 every output character is the mask character `'*'` (so the
empty string maps to the empty string); for longer strings the output keeps
the first two and the last two characters and every one of the
`length − 4` interior characters is `'*'`.  `maskSecret` is a total Lean
function, hence defined (and deterministic) on every input. -/
theorem maskSecret_shape (s : Str) :
    (maskSecret s).length = s.length ∧
    maskSecret [] = [] ∧
    (s.length ≤ 4 → ∀ c ∈ maskSecret s, c = '*') ∧
    (4 < s.length →
      (maskSecret s).take 2 = s.take 2 ∧
      (maskSecret s).drop (s.length - 2) = s.drop (s.length - 2) ∧
      ((maskSecret s).drop 2).take (s.length - 4) = List.replicate (s.length - 4) '*') := by
  refine ⟨maskSecret_length s, rfl, ?_, ?_⟩
  · intro h c hc
    rw [maskSecret_of_le s h] at hc
    exact List.eq_of_mem_replicate hc
  · intro h
    exact ⟨maskSecret_take_two s h, maskSecret_drop_two s h, maskSecret_interior s h⟩

/-- Witness for C2 at the concrete strings "abcdef" and "ab". -/
theorem maskSecret_shape_witness :
    ((maskSecret ("abcdef".toList)).take 2 = ("abcdef".toList).take 2 ∧
     (maskSecret ("abcdef".toList)).drop (("abcdef".toList).length - 2) =
       ("abcdef".toList).drop (("abcdef".toList).length - 2) ∧
     ((maskSecret ("abcdef".toList)).drop 2).take (("abcdef".toList).length - 4) =
       List.replicate (("abcdef".toList).length - 4) '*') ∧
    (∀ c ∈ maskSecret ("ab".toList), c = '*') :=
  ⟨(maskSecret_shape ("abcdef".toList)).2.2.2 (by decide),
   (maskSecret_shape ("ab".toList)).2.2.1 (by decide)⟩

/-- C3 counterexample: the claim says `maskSecret (maskSecret s) = maskSecret s`
holds only when `s` already has the masked shape, but for `s = "abcdef"` the
round trip already agrees although masking changes `s` (so `s` does not have
the masked shape). -/
theorem maskSecret_roundtrip_counterexample :
    maskSecret (maskSecret ("abcdef".toList)) = maskSecret ("abcdef".toList) ∧
    maskSecret ("abcdef".toList) ≠ "abcdef".toList := by
  decide

/-- C3 (amended): `maskSecret` is idempotent on every input, whether or not
the input already has the masked shape; round-tripping never changes the
masked form. -/
theorem maskSecret_idempotent (s : Str) :
    maskSecret (maskSecret s) = maskSecret s := by
  by_cases h : s.length ≤ 4
  · rw [maskSecret_of_le s h]
    rw [maskSecret_of_le _ (by simpa using h)]
    simp
  · have h' : 4 < s.length := by omega
    have hlen : (maskSecret s).length = s.length := maskSecret_length s
    have h2 : 4 < (maskSecret s).length := by omega
    rw [maskSecret_of_gt (maskSecret s) h2, hlen,
      maskSecret_take_two s h', maskSecret_drop_two s h', maskSecret_of_gt s h']

/-! ### Helper lemmas about `containsSub` and `isSecret` -/

lemma containsSub_iff (hay needle : Str) : containsSub hay needle = true ↔ needle <:+: hay := by
  induction hay with
  | nil =>
    simp [containsSub, List.isEmpty_iff]
  | cons c rest ih =>
    rw [List.infix_cons_iff]
    simp only [containsSub, Bool.or_eq_true, ih, List.isPrefixOf_iff_prefix]

lemma infix_map_iff {α β : Type} (f : α → β) (needle : List β) (hay : List α) :
    needle <:+: hay.map f ↔ ∃ t, t <:+: hay ∧ t.map f = needle := by
  constructor
  · rintro ⟨u, w, h⟩
    obtain ⟨l₁, l₂, hhay, hmap₁, hmap₂⟩ := List.map_eq_append_iff.mp h.symm
    obtain ⟨a, b, hl₁, hmapa, hmapb⟩ := List.map_eq_append_iff.mp hmap₁
    exact ⟨b, ⟨a, l₂, by rw [hhay, hl₁, List.append_assoc]⟩, hmapb⟩
  · rintro ⟨t, ⟨u, w, huw⟩, hmap⟩
    refine ⟨u.map f, w.map f, ?_⟩
    rw [← hmap, ← List.map_append, ← List.map_append, huw]

/-! ### C4 -/

/-- C4: `isSecret` returns true exactly for the names with a substring whose
uppercase form is one of the markers PASSWORD, SECRET, KEY, TOKEN,
CREDENTIAL, PRIVATE (case-insensitive containment of a marker); in
particular the marker-free names DB_HOST, DB_PORT and GOOGLE_CLIENT_ID are
classified as not sensitive. -/
theorem isSecret_markers (name : Str) :
    (isSecret name = true ↔
      ∃ m ∈ secretVars, ∃ t, t <:+: name ∧ t.map Char.toUpper = m) ∧
    isSecret ("DB_HOST".toList) = false ∧
    isSecret ("DB_PORT".toList) = false ∧
    isSecret ("GOOGLE_CLIENT_ID".toList) = false := by
  refine ⟨?_, by decide, by decide, by decide⟩
  unfold isSecret
  rw [List.any_eq_true]
  constructor
  · rintro ⟨m, hm, hc⟩
    rw [containsSub_iff] at hc
    obtain ⟨t, ht, hmap⟩ := (infix_map_iff Char.toUpper m name).mp hc
    exact ⟨m, hm, t, ht, hmap⟩
  · rintro ⟨m, hm, t, ht, hmap⟩
    refine ⟨m, hm, ?_⟩
    rw [containsSub_iff]
    exact (infix_map_iff Char.toUpper m name).mpr ⟨t, ht, hmap⟩

/-! ### C1 -/

/-- C1 counterexample: the seventh line of `PrintConfig` prints `REDIS_URL`
masked although `isSecret` classifies `REDIS_URL` as not sensitive, and on
the concrete value `"redis://u"` the masked form differs from the verbatim
value, so the typed-record rendering does not agree with the classifier on
every field. -/
theorem printConfig_redis_url_mismatch :
    isSecret ("REDIS_URL".toList) = false ∧
    (PrintConfig redisOnlyConfig)[6]? =
      some (("REDIS_URL".toList), maskSecret ("redis://u".toList)) ∧
    (configFields redisOnlyConfig)[6]? =
      some (("REDIS_URL".toList), "redis://u".toList) ∧
    maskSecret ("redis://u".toList) ≠ "redis://u".toList := by
  decide

/-- C1 (amended): for every field of the typed record, `PrintConfig` writes
the field masked if and only if `isSecret` classifies the field's name as
sensitive **or** the field is `REDIS_URL`, which `PrintConfig` masks even
though the classifier returns false for it; every other field agrees with
the classifier. -/
theorem printConfig_masks_iff_classifier_or_redis (config : EnvConfig) :
    PrintConfig config =
      (configFields config).map (fun p =>
        (p.1, if isSecret p.1 ∨ p.1 = "REDIS_URL".toList then maskSecret p.2 else p.2)) :=
  rfl

/-! ### Helper lemmas about the environment table and the export loop -/

lemma lookupEnv_cons (k' v k : Str) (env : Env) :
    lookupEnv ((k', v) :: env) k = if k' = k then some v else lookupEnv env k := by
  by_cases h : k' = k <;> simp [lookupEnv, List.find?_cons, h]

lemma exportLines_ok (lines : List Str) : ∀ env : Env,
    exportLines (fun _ _ => true) lines env =
      (none, (lines.filterMap processLine).reverse ++ env) := by
  induction lines with
  | nil => intro env; simp [exportLines]
  | cons l rest ih =>
    intro env
    cases hp : processLine l with
    | none => simp [exportLines, hp, ih env]
    | some kv =>
      obtain ⟨k, v⟩ := kv
      have step : exportLines (fun _ _ => true) (l :: rest) env =
          exportLines (fun _ _ => true) rest ((k, v) :: env) := by
        simp [exportLines, hp, setEnvVar]
      rw [step, ih ((k, v) :: env)]
      simp [hp]

lemma lookupEnv_reverse_append (entries : List (Str × Str)) : ∀ (env : Env) (k : Str),
    lookupEnv (entries.reverse ++ env) k =
      match lastEntryValue entries k with
      | some v => some v
      | none => lookupEnv env k := by
  induction entries with
  | nil => intro env k; simp [lastEntryValue]
  | cons p rest ih =>
    intro env k
    obtain ⟨k', v⟩ := p
    rw [List.reverse_cons, List.append_assoc, List.singleton_append, ih ((k', v) :: env) k]
    simp only [lastEntryValue]
    cases hl : lastEntryValue rest k with
    | some v' => simp [hl]
    | none =>
      simp only [hl, lookupEnv_cons]
      by_cases h : k' = k <;> simp [h]

/-! ### Helper lemmas about trimming -/

lemma dropWhile_idem (p : Char → Bool) (l : Str) :
    (l.dropWhile p).dropWhile p = l.dropWhile p := by
  induction l with
  | nil => rfl
  | cons c t ih =>
    by_cases h : p c <;> simp [List.dropWhile_cons, h, ih]

lemma trimLeftWS_idem (s : Str) : trimLeftWS (trimLeftWS s) = trimLeftWS s :=
  dropWhile_idem _ _

lemma trimRightWS_idem (s : Str) : trimRightWS (trimRightWS s) = trimRightWS s := by
  unfold trimRightWS
  rw [List.reverse_reverse, dropWhile_idem]

lemma trimRightWS_cons (c : Char) (t : Str) :
    trimRightWS (c :: t) =
      if (t.reverse.dropWhile isSpaceChar).isEmpty then
        (if isSpaceChar c then [] else [c])
      else c :: trimRightWS t := by
  unfold trimRightWS
  rw [List.reverse_cons, List.dropWhile_append]
  by_cases hd : (t.reverse.dropWhile isSpaceChar).isEmpty
  · simp only [hd, if_true]
    by_cases hc : isSpaceChar c <;> simp [List.dropWhile_cons, hc]
  · simp only [hd, if_false]
    simp

lemma trimLeft_trimRight_comm (s : Str) :
    trimLeftWS (trimRightWS s) = trimRightWS (trimLeftWS s) := by
  induction s with
  | nil => rfl
  | cons c t ih =>
    rw [trimRightWS_cons]
    by_cases hc : isSpaceChar c
    · have hL : trimLeftWS (c :: t) = trimLeftWS t := by
        simp [trimLeftWS, List.dropWhile_cons, hc]
      rw [hL, ← ih]
      by_cases hd : (t.reverse.dropWhile isSpaceChar).isEmpty
      · have hz : trimRightWS t = [] := by
          unfold trimRightWS
          rw [List.isEmpty_iff.mp hd]
          rfl
        simp [hd, hc, hz, trimLeftWS]
      · simp [hd, trimLeftWS, List.dropWhile_cons, hc]
    · have hL : trimLeftWS (c :: t) = c :: t := by
        simp [trimLeftWS, List.dropWhile_cons, hc]
      rw [hL, trimRightWS_cons]
      by_cases hd : (t.reverse.dropWhile isSpaceChar).isEmpty
      · simp [hd, hc, trimLeftWS, List.dropWhile_cons]
      · simp [hd, trimLeftWS, List.dropWhile_cons, hc]

lemma trimSpace_trimSpace (s : Str) : trimSpace (trimSpace s) = trimSpace s := by
  unfold trimSpace
  rw [trimLeft_trimRight_comm, trimRightWS_idem, trimLeftWS_idem]

lemma processLine_trimmed (line key v : Str) (h : processLine line = some (key, v)) :
    key = trimSpace key ∧ v = trimSpace v := by
  simp only [processLine] at h
  split at h
  · simp at h
  · split at h
    next k' v' heq =>
      rw [Option.some.injEq, Prod.mk.injEq] at h
      obtain ⟨hk, hv⟩ := h
      constructor
      · rw [← hk, trimSpace_trimSpace]
      · rw [← hv, trimSpace_trimSpace]
    next => simp at h

lemma processLine_blank (line : Str) (h : trimSpace line = []) : processLine line = none := by
  simp [processLine, h]

lemma processLine_comment (line : Str) (h : (trimSpace line).head? = some '#') :
    processLine line = none := by
  simp [processLine, h]

/-! ### C5 -/

/-- C5: running `LoadSOPSEnvToSystem` on a successfully decrypted document
never fails when every `os.Setenv` succeeds, and afterwards the value of any
key `k` is the value of the **last** document line that parses to an entry
for `k` (later duplicates win), with the prior environment untouched for
keys no entry mentions; moreover each line is trimmed before inspection,
blank and `#`-comment lines are skipped, and the key and value of every
produced entry are whitespace-trimmed. -/
theorem loadToSystem_document_order (lines : List Str) (env : Env) (k fname : Str) :
    (LoadSOPSEnvToSystem (fun _ => Except.ok lines) (fun _ _ => true) fname env).1 = none ∧
    lookupEnv (LoadSOPSEnvToSystem (fun _ => Except.ok lines) (fun _ _ => true) fname env).2 k =
      (match lastEntryValue (lines.filterMap processLine) k with
       | some v => some v
       | none => lookupEnv env k) ∧
    (∀ line, trimSpace line = [] → processLine line = none) ∧
    (∀ line, (trimSpace line).head? = some '#' → processLine line = none) ∧
    (∀ line key v, processLine line = some (key, v) →
      key = trimSpace key ∧ v = trimSpace v) := by
  have hrun : LoadSOPSEnvToSystem (fun _ => Except.ok lines) (fun _ _ => true) fname env =
      (none, (lines.filterMap processLine).reverse ++ env) := exportLines_ok lines env
  refine ⟨by rw [hrun], ?_, processLine_blank, processLine_comment, processLine_trimmed⟩
  rw [hrun]
  exact lookupEnv_reverse_append (lines.filterMap processLine) env k

/-- Witness for C5: a blank line and a comment line are skipped, and the
entry parsed from `" A = 1 "` has trimmed key and value. -/
theorem loadToSystem_document_order_witness :
    processLine ("   ".toList) = none ∧
    processLine ("  # comment".toList) = none ∧
    ("A".toList = trimSpace ("A".toList) ∧ "1".toList = trimSpace ("1".toList)) :=
  ⟨(loadToSystem_document_order [] [] [] []).2.2.1 ("   ".toList) (by decide),
   (loadToSystem_document_order [] [] [] []).2.2.2.1 ("  # comment".toList) (by decide),
   (loadToSystem_document_order [] [] [] []).2.2.2.2 (" A = 1 ".toList)
     ("A".toList) ("1".toList) (by decide)⟩

/-! ### C7 -/

set_option maxHeartbeats 1000000 in
/-- C7: the field mapping of `LoadSOPSEnv` never fails because of an absent
key: for every parsed entry map, every schema field whose key is absent is
set to the empty string (the string type's zero value), and every field
whose key is present is set to the parsed value unchanged; `mapConfig` is a
total function, so the mapping introduces no error condition. -/
theorem mapConfig_missing_keys (envMap : Str → Option Str) :
    ∀ p ∈ schemaAccessors,
      (envMap p.2 = none → p.1 (mapConfig envMap) = []) ∧
      (∀ v, envMap p.2 = some v → p.1 (mapConfig envMap) = v) := by
  intro p hp
  fin_cases hp <;> refine ⟨fun h => ?_, fun v h => ?_⟩ <;> simp_all [mapConfig]

/-- Witness for C7: an empty entry map yields an empty `JWTSecret`, and a
map with only `DB_HOST` maps it through unchanged. -/
theorem mapConfig_missing_keys_witness :
    (mapConfig (fun _ => none)).JWTSecret = [] ∧
    (mapConfig (fun q => if q = "DB_HOST".toList then some ("localhost".toList)
        else none)).DBHost = "localhost".toList :=
  ⟨(mapConfig_missing_keys (fun _ => none)
      (EnvConfig.JWTSecret, "JWT_SECRET".toList)
      (by unfold schemaAccessors; simp)).1 rfl,
   (mapConfig_missing_keys (fun q => if q = "DB_HOST".toList then some ("localhost".toList)
        else none)
      (EnvConfig.DBHost, "DB_HOST".toList)
      (by unfold schemaAccessors; simp)).2 ("localhost".toList) (by simp)⟩

/-! ### C8 -/

/-- C8: whenever the external decryptor fails, `LoadSOPSEnv` returns the
decryption-failure error and no configuration record; moreover on every
input exactly one of record and error is produced (they are mutually
exclusive outcomes). -/
theorem loadSOPSEnv_decryption_failure (decrypt : Str → Except Unit Str)
    (createTempOk writeTempOk : Bool)
    (readEnv : Str → Except Unit (Str → Option Str)) (filename : Str) :
    (decrypt filename = Except.error () →
      LoadSOPSEnv decrypt createTempOk writeTempOk readEnv filename =
        (none, some LoadError.decryptionFailed)) ∧
    ((LoadSOPSEnv decrypt createTempOk writeTempOk readEnv filename).1 = none ↔
      (LoadSOPSEnv decrypt createTempOk writeTempOk readEnv filename).2 ≠ none) := by
  constructor
  · intro h
    simp [LoadSOPSEnv, h]
  · unfold LoadSOPSEnv
    cases hd : decrypt filename with
    | error e => simp
    | ok data =>
      cases createTempOk <;> cases writeTempOk <;>
        first
        | (simp; done)
        | (cases hr : readEnv data <;> simp [hr])

/-- Witness for C8: a decryptor that always fails produces the
decryption-failure outcome and no record. -/
theorem loadSOPSEnv_decryption_failure_witness :
    LoadSOPSEnv (fun _ => Except.error ()) true true
        (fun _ => Except.ok (fun _ => none)) [] =
      (none, some LoadError.decryptionFailed) :=
  (loadSOPSEnv_decryption_failure (fun _ => Except.error ()) true true
    (fun _ => Except.ok (fun _ => none)) []).1 rfl

/-! ### C9 -/

lemma exportLines_failure (ok : Str → Str → Bool) (lines : List Str) :
    ∀ (env : Env) (e : ExportError),
      (exportLines ok lines env).1 = some e →
      ∃ pre line post key v,
        lines = pre ++ line :: post ∧
        (exportLines ok pre env).1 = none ∧
        processLine line = some (key, v) ∧
        ok key v = false ∧
        e = ExportError.setenvFailed key ∧
        (exportLines ok lines env).2 = (exportLines ok pre env).2 ∧
        exportLines ok (pre ++ [line]) env = exportLines ok lines env := by
  induction lines with
  | nil => intro env e h; simp [exportLines] at h
  | cons l rest ih =>
    intro env e h
    cases hp : processLine l with
    | none =>
      have hskip : ∀ (xs : List Str) (env' : Env),
          exportLines ok (l :: xs) env' = exportLines ok xs env' := by
        intro xs env'; simp [exportLines, hp]
      rw [hskip rest env] at h
      obtain ⟨pre, line, post, key, v, h1, h2, h3, h4, h5, h6, h7⟩ := ih env e h
      refine ⟨l :: pre, line, post, key, v, by simp [h1], ?_, h3, h4, h5, ?_, ?_⟩
      · rw [hskip pre env]; exact h2
      · rw [hskip rest env, hskip pre env]; exact h6
      · rw [List.cons_append, hskip (pre ++ [line]) env, hskip rest env]; exact h7
    | some kv =>
      obtain ⟨key', v'⟩ := kv
      cases hok : ok key' v' with
      | true =>
        have hstep : ∀ (xs : List Str),
            exportLines ok (l :: xs) env = exportLines ok xs (setEnvVar env key' v') := by
          intro xs; simp [exportLines, hp, hok]
        rw [hstep rest] at h
        obtain ⟨pre, line, post, key, v, h1, h2, h3, h4, h5, h6, h7⟩ :=
          ih (setEnvVar env key' v') e h
        refine ⟨l :: pre, line, post, key, v, by simp [h1], ?_, h3, h4, h5, ?_, ?_⟩
        · rw [hstep pre]; exact h2
        · rw [hstep rest, hstep pre]; exact h6
        · rw [List.cons_append, hstep (pre ++ [line]), hstep rest]; exact h7
      | false =>
        have hres : exportLines ok (l :: rest) env =
            (some (ExportError.setenvFailed key'), env) := by
          simp [exportLines, hp, hok]
        rw [hres] at h
        simp only [Option.some.injEq] at h
        refine ⟨[], l, rest, key', v', rfl, rfl, hp, hok, h.symm, ?_, ?_⟩
        · rw [hres]; rfl
        · rw [List.nil_append, hres]
          simp [exportLines, hp, hok]

/-- C9: the Environment Exporter is not transactional.  If the run over the
document fails with an error `e`, then the document splits as
`pre ++ line :: post` where every line of `pre` was processed without
error, `line` parses to the entry whose `os.Setenv` fails, `e` carries that
entry's key, the resulting environment is exactly the one built from `pre`
(everything applied before the failure stays applied, nothing is rolled
back), and the whole run equals the run truncated right after the failing
line (no retry, no processing of later lines). -/
theorem loadToSystem_not_transactional (ok : Str → Str → Bool) (lines : List Str)
    (env : Env) (e : ExportError) (fname : Str)
    (h : (LoadSOPSEnvToSystem (fun _ => Except.ok lines) ok fname env).1 = some e) :
    ∃ pre line post key v,
      lines = pre ++ line :: post ∧
      (LoadSOPSEnvToSystem (fun _ => Except.ok pre) ok fname env).1 = none ∧
      processLine line = some (key, v) ∧
      ok key v = false ∧
      e = ExportError.setenvFailed key ∧
      (LoadSOPSEnvToSystem (fun _ => Except.ok lines) ok fname env).2 =
        (LoadSOPSEnvToSystem (fun _ => Except.ok pre) ok fname env).2 ∧
      LoadSOPSEnvToSystem (fun _ => Except.ok (pre ++ [line])) ok fname env =
        LoadSOPSEnvToSystem (fun _ => Except.ok lines) ok fname env :=
  exportLines_failure ok lines env e h

/-- Witness for C9 on the document `A=1, BAD=2, C=3` with a setter that
rejects the key `BAD`. -/
theorem loadToSystem_not_transactional_witness :
    ∃ pre line post key v,
      (["A=1".toList, "BAD=2".toList, "C=3".toList] : List Str) = pre ++ line :: post ∧
      (LoadSOPSEnvToSystem (fun _ => Except.ok pre)
        (fun q _ => !(q == "BAD".toList)) [] []).1 = none ∧
      processLine line = some (key, v) ∧
      (fun (q _ : Str) => !(q == "BAD".toList)) key v = false ∧
      ExportError.setenvFailed ("BAD".toList) = ExportError.setenvFailed key ∧
      (LoadSOPSEnvToSystem (fun _ => Except.ok ["A=1".toList, "BAD=2".toList, "C=3".toList])
          (fun q _ => !(q == "BAD".toList)) [] []).2 =
        (LoadSOPSEnvToSystem (fun _ => Except.ok pre)
          (fun q _ => !(q == "BAD".toList)) [] []).2 ∧
      LoadSOPSEnvToSystem (fun _ => Except.ok (pre ++ [line]))
          (fun q _ => !(q == "BAD".toList)) [] [] =
        LoadSOPSEnvToSystem (fun _ => Except.ok ["A=1".toList, "BAD=2".toList, "C=3".toList])
          (fun q _ => !(q == "BAD".toList)) [] [] :=
  loadToSystem_not_transactional (fun q _ => !(q == "BAD".toList))
    ["A=1".toList, "BAD=2".toList, "C=3".toList] [] (ExportError.setenvFailed ("BAD".toList))
    [] (by decide)

/-! ### C10 -/

lemma isSpaceChar_eq_false : isSpaceChar '=' = false := by decide

lemma trimLeftWS_append_eq (k w : Str) :
    trimLeftWS (k ++ '=' :: w) = trimLeftWS k ++ '=' :: w := by
  unfold trimLeftWS
  rw [List.dropWhile_append]
  by_cases h : (k.dropWhile isSpaceChar).isEmpty
  · rw [List.isEmpty_iff.mp h]
    simp [List.dropWhile_cons, isSpaceChar_eq_false]
  · simp [h]

lemma trimRightWS_append_eq (x w : Str) :
    trimRightWS (x ++ '=' :: w) = x ++ '=' :: trimRightWS w := by
  unfold trimRightWS
  rw [List.reverse_append, List.reverse_cons, List.append_assoc, List.dropWhile_append]
  by_cases h : (w.reverse.dropWhile isSpaceChar).isEmpty
  · rw [List.isEmpty_iff.mp h]
    simp [List.dropWhile_cons, List.dropWhile_append, isSpaceChar_eq_false]
  · simp [h, isSpaceChar_eq_false, List.dropWhile_cons, List.dropWhile_append]

lemma trimSpace_key_sep_value (k w : Str) :
    trimSpace (k ++ '=' :: w) = trimLeftWS k ++ '=' :: trimRightWS w := by
  unfold trimSpace
  rw [trimLeftWS_append_eq, trimRightWS_append_eq]

lemma splitN2Eq_first (x y : Str) (hx : '=' ∉ x) :
    splitN2Eq (x ++ '=' :: y) = [x, y] := by
  unfold splitN2Eq
  rw [if_pos (by simp [List.contains, List.elem_eq_mem])]
  have hall : ∀ a ∈ x, (fun c => decide (c ≠ '=')) a = true := by
    intro a ha
    simp only [decide_eq_true_eq]
    intro hEq
    exact hx (hEq ▸ ha)
  rw [List.takeWhile_append_of_pos hall, List.dropWhile_append_of_pos hall]
  simp [List.takeWhile_cons, List.dropWhile_cons]

lemma trimSpace_trimLeftWS (s : Str) : trimSpace (trimLeftWS s) = trimSpace s := by
  unfold trimSpace
  rw [trimLeftWS_idem]

lemma trimSpace_trimRightWS (s : Str) : trimSpace (trimRightWS s) = trimSpace s := by
  unfold trimSpace
  rw [trimLeft_trimRight_comm, trimRightWS_idem]

lemma processLine_no_sep (line : Str) (h : '=' ∉ trimSpace line) :
    processLine line = none := by
  simp only [processLine]
  split
  · rfl
  · have hsplit : splitN2Eq (trimSpace line) = [trimSpace line] := by
      unfold splitN2Eq
      rw [if_neg (by simp [List.contains, List.elem_eq_mem, h])]
    rw [hsplit]

lemma processLine_split_at_first (k w : Str) (hk : '=' ∉ k)
    (hc : (trimLeftWS k).head? ≠ some '#') :
    processLine (k ++ '=' :: w) = some (trimSpace k, trimSpace w) := by
  have htrim := trimSpace_key_sep_value k w
  have hkx : '=' ∉ trimLeftWS k := fun hm => hk ((List.dropWhile_sublist _).subset hm)
  simp only [processLine, htrim]
  rw [if_neg ?hcond]
  case hcond =>
    rintro (hnil | hhash)
    · exact absurd hnil (by simp)
    · cases hx : trimLeftWS k with
      | nil => rw [hx] at hhash; simp at hhash
      | cons c t =>
        rw [hx] at hhash
        simp at hhash
        exact hc (by rw [hx, hhash]; rfl)
  rw [splitN2Eq_first _ _ hkx]
  show some (trimSpace (trimLeftWS k), trimSpace (trimRightWS w)) =
    some (trimSpace k, trimSpace w)
  rw [trimSpace_trimLeftWS, trimSpace_trimRightWS]

/-- C10: each non-blank non-comment line is split at the **first** `'='`
only: a line `k = v1 = v2` (with no `'='` in the key part) produces the
entry whose key is the trimmed `k` and whose value is the trimmed
`v1 = v2`, so `'='` characters after the first stay in the value; and a
line whose trimmed form contains no `'='` at all is silently skipped by the
export loop rather than causing a failure. -/
theorem loadToSystem_split_first_separator (k v1 v2 line : Str)
    (hk : '=' ∉ k) (hc : (trimLeftWS k).head? ≠ some '#') :
    processLine (k ++ '=' :: (v1 ++ '=' :: v2)) =
      some (trimSpace k, trimSpace (v1 ++ '=' :: v2)) ∧
    ('=' ∉ trimSpace line → processLine line = none) ∧
    (∀ (ok : Str → Str → Bool) (rest : List Str) (env : Env),
      processLine line = none →
      exportLines ok (line :: rest) env = exportLines ok rest env) := by
  refine ⟨processLine_split_at_first k (v1 ++ '=' :: v2) hk hc,
    processLine_no_sep line, ?_⟩
  intro ok rest env hnone
  simp [exportLines, hnone]

/-- Witness for C10 on the line `K=V1=V2` and the separator-free line
`NOSEP`. -/
theorem loadToSystem_split_first_separator_witness :
    processLine ("K".toList ++ '=' :: ("V1".toList ++ '=' :: "V2".toList)) =
      some (trimSpace ("K".toList), trimSpace ("V1".toList ++ '=' :: "V2".toList)) ∧
    processLine ("NOSEP".toList) = none ∧
    exportLines (fun _ _ => true) ("NOSEP".toList :: []) [] =
      exportLines (fun _ _ => true) [] [] :=
  have h := loadToSystem_split_first_separator ("K".toList) ("V1".toList) ("V2".toList)
    ("NOSEP".toList) (by decide) (by decide)
  ⟨h.1, h.2.1 (by decide), h.2.2 (fun _ _ => true) [] [] (h.2.1 (by decide))⟩

/-! ### C6 -/

lemma renderEnvVar_some (env : Env) (a : Str) (p : Str × Str)
    (h : renderEnvVar env a = some p) :
    p.1 = a ∧ getEnvVar env a ≠ [] ∧
    p.2 = if isSecret a then maskSecret (getEnvVar env a) else getEnvVar env a := by
  simp only [renderEnvVar] at h
  split at h
  next hne =>
    split at h
    next hsec =>
      rw [Option.some.injEq] at h
      subst h
      simp [hne, hsec]
    next hsec =>
      rw [Option.some.injEq] at h
      subst h
      simp [hne, hsec]
  next => simp at h

/-- C6: every line of `PrintSystemEnvVars` is an allowlisted name whose
current value is nonempty, rendered masked exactly when `isSecret` holds of
that name; an allowlisted name with an empty current value produces no
line; in particular an absent `JWT_SECRET` produces no line in this mode,
while `PrintConfig` still renders a `JWT_SECRET` line whose empty value is
masked into the empty string. -/
theorem printSystemEnvVars_allowlist (env : Env) (config : EnvConfig) :
    (∀ p ∈ PrintSystemEnvVars env,
      p.1 ∈ ourVars ∧ getEnvVar env p.1 ≠ [] ∧
      p.2 = if isSecret p.1 then maskSecret (getEnvVar env p.1) else getEnvVar env p.1) ∧
    (∀ v ∈ ourVars, getEnvVar env v = [] →
      v ∉ (PrintSystemEnvVars env).map Prod.fst) ∧
    (getEnvVar env ("JWT_SECRET".toList) = [] →
      ("JWT_SECRET".toList) ∉ (PrintSystemEnvVars env).map Prod.fst) ∧
    (config.JWTSecret = [] → ("JWT_SECRET".toList, ([] : Str)) ∈ PrintConfig config) := by
  have hone : ∀ p ∈ PrintSystemEnvVars env,
      p.1 ∈ ourVars ∧ getEnvVar env p.1 ≠ [] ∧
      p.2 = if isSecret p.1 then maskSecret (getEnvVar env p.1) else getEnvVar env p.1 := by
    intro p hp
    obtain ⟨a, ha, hsome⟩ := List.mem_filterMap.mp hp
    obtain ⟨h1, h2, h3⟩ := renderEnvVar_some env a p hsome
    rw [h1]
    exact ⟨ha, h2, h3⟩
  have hskip : ∀ v ∈ ourVars, getEnvVar env v = [] →
      v ∉ (PrintSystemEnvVars env).map Prod.fst := by
    intro v hv hempty hmem
    obtain ⟨p, hp, hfst⟩ := List.mem_map.mp hmem
    obtain ⟨a, ha, hsome⟩ := List.mem_filterMap.mp hp
    obtain ⟨h1, h2, _⟩ := renderEnvVar_some env a p hsome
    have hav : a = v := by rw [← h1, hfst]
    exact h2 (by rw [hav]; exact hempty)
  refine ⟨hone, hskip, hskip ("JWT_SECRET".toList) (by decide), ?_⟩
  intro h
  have hz : maskSecret config.JWTSecret = [] := by rw [h]; rfl
  simp [PrintConfig, hz]

/-- Witness for C6: with only `DB_HOST` set, the environment-table mode
prints no `JWT_SECRET` line, while the typed-record mode built from an
empty entry map still prints `JWT_SECRET` with an empty (masked) value. -/
theorem printSystemEnvVars_allowlist_witness :
    (("JWT_SECRET".toList) ∉
      (PrintSystemEnvVars [("DB_HOST".toList, "localhost".toList)]).map Prod.fst) ∧
    (("JWT_SECRET".toList, ([] : Str)) ∈ PrintConfig (mapConfig (fun _ => none))) :=
  ⟨(printSystemEnvVars_allowlist [("DB_HOST".toList, "localhost".toList)]
      (mapConfig (fun _ => none))).2.2.1 (by decide),
   (printSystemEnvVars_allowlist [("DB_HOST".toList, "localhost".toList)]
      (mapConfig (fun _ => none))).2.2.2 rfl⟩
